import Mathlib

/-!
Verification of the PLC simulator core (`src/plc/plc_runtime.py`,
`src/plc/st_parser.py`, `src/plc/modbus_interface.py`, `src/plc/main.py`).

The Python interpreter is shallowly embedded: dynamically-typed Python values
become the closed `Val` type (Python `None` is `Val.vnone`), Python `dict`
memory areas become association lists, a raised Python exception becomes an
`Option`/flag result, and the interpreter's implicit mutation of `self.memory`
becomes explicit state passing.  Python floats are modelled as exact rationals;
every concrete scenario used below is chosen so that float rounding cannot
change the verdict.  Expression evaluation additionally returns the ordered
list of variable names it looked up (`reads`), which makes evaluation order
and (non-)short-circuiting observable in an otherwise pure embedding.
-/

namespace PLCSim

/-- Runtime values of the Python interpreter: `bool`, `int`, `float`
(modelled as `ℚ`) and `None` (the value `PLCMemory.get_value` returns for a
missing name). -/
inductive Val where
  | vbool (b : Bool)
  | vint (n : Int)
  | vreal (q : ℚ)
  | vnone
deriving DecidableEq, Repr

/-- Python truthiness of a value (`bool(v)`): `None` is falsy, numbers are
truthy iff nonzero. -/
def truthy : Val → Bool
  | .vbool b => b
  | .vint n => n != 0
  | .vreal q => q != 0
  | .vnone => false

/-- A value Python treats as a number (`bool` is a subclass of `int`). -/
def isNum : Val → Bool
  | .vbool _ => true
  | .vint _ => true
  | .vreal _ => true
  | .vnone => false

/-- A value Python treats as an integer (`bool` or `int`). -/
def isIntish : Val → Bool
  | .vbool _ => true
  | .vint _ => true
  | .vreal _ => false
  | .vnone => false

/-- Is the value a Python `bool`? -/
def isBoolVal : Val → Bool
  | .vbool _ => true
  | _ => false

/-- The integer a `bool`/`int` value denotes (`True` counts as `1`). -/
def toInt : Val → Int
  | .vbool b => if b then 1 else 0
  | .vint n => n
  | .vreal _ => 0
  | .vnone => 0

/-- The rational a numeric value denotes. -/
def toRat : Val → ℚ
  | .vbool b => if b then 1 else 0
  | .vint n => (n : ℚ)
  | .vreal q => q
  | .vnone => 0

/-- Python `int(q)` on a float: truncation toward zero (floor for
nonnegative values, ceiling for negative ones). -/
def ratTrunc (q : ℚ) : Int :=
  if 0 ≤ q then ⌊q⌋ else ⌈q⌉

/-- Python `int(v)`: `bool`/`int` pass through (as integers), floats truncate
toward zero, `None` raises `TypeError`. -/
def pyToInt : Val → Option Int
  | .vbool b => some (if b then 1 else 0)
  | .vint n => some n
  | .vreal q => some (ratTrunc q)
  | .vnone => none

/-- Python `==` on the values occurring in this interpreter: `None` is equal
only to `None`; numbers (including `bool`) compare by numeric value.  Never
raises. -/
def pyEq : Val → Val → Bool
  | .vnone, .vnone => true
  | .vnone, _ => false
  | _, .vnone => false
  | l, r => toRat l == toRat r

/-- Python `l + r`: `int`-like operands give an `int`, any float operand gives
a float, a `None` operand raises (`none`). -/
def pyAdd (l r : Val) : Option Val :=
  if isIntish l && isIntish r then some (.vint (toInt l + toInt r))
  else if isNum l && isNum r then some (.vreal (toRat l + toRat r))
  else none

/-- Python `l - r` (same typing rules as `pyAdd`). -/
def pySub (l r : Val) : Option Val :=
  if isIntish l && isIntish r then some (.vint (toInt l - toInt r))
  else if isNum l && isNum r then some (.vreal (toRat l - toRat r))
  else none

/-- Python `l * r` (same typing rules as `pyAdd`). -/
def pyMul (l r : Val) : Option Val :=
  if isIntish l && isIntish r then some (.vint (toInt l * toInt r))
  else if isNum l && isNum r then some (.vreal (toRat l * toRat r))
  else none

/-- Python true division `l / r`: always a float; a `None` operand raises. -/
def pyDivVals (l r : Val) : Option Val :=
  if isNum l && isNum r then some (.vreal (toRat l / toRat r))
  else none

/-- Python `l > r` as used by the default controller: numeric comparison,
raising on `None`. -/
def pyGtB (l r : Val) : Option Bool :=
  if isNum l && isNum r then some (decide (toRat r < toRat l))
  else none

/-- Binary arithmetic operators of `_evaluate_expression`. -/
inductive ABin where
  | add | sub | mul | div
deriving DecidableEq, Repr

/-- Comparison operators of `_evaluate_expression`. -/
inductive ACmp where
  | gt | lt | ge | le | eq | ne
deriving DecidableEq, Repr

/-- Logical operators of `_evaluate_expression`. -/
inductive ALog where
  | and | or
deriving DecidableEq, Repr

/-- Unary operators of `_evaluate_expression`. -/
inductive AUn where
  | not | neg
deriving DecidableEq, Repr

/-- `left / right if right != 0 else 0` plus the other three arithmetic
branches of `_evaluate_expression`.  Note the division branch tests
`right != 0` with Python `!=` against the `int` literal `0`, and yields the
`int` literal `0` when it fails. -/
def applyBin : ABin → Val → Val → Option Val
  | .add, l, r => pyAdd l r
  | .sub, l, r => pySub l r
  | .mul, l, r => pyMul l r
  | .div, l, r => if pyEq r (.vint 0) then some (.vint 0) else pyDivVals l r

/-- The comparison branch of `_evaluate_expression`: `=`/`<>` use Python
`==`/`!=` (total), order comparisons require numeric operands and raise on
`None`. -/
def applyCmp : ACmp → Val → Val → Option Val
  | .eq, l, r => some (.vbool (pyEq l r))
  | .ne, l, r => some (.vbool (!pyEq l r))
  | .gt, l, r => if isNum l && isNum r then some (.vbool (decide (toRat r < toRat l))) else none
  | .lt, l, r => if isNum l && isNum r then some (.vbool (decide (toRat l < toRat r))) else none
  | .ge, l, r => if isNum l && isNum r then some (.vbool (decide (toRat r ≤ toRat l))) else none
  | .le, l, r => if isNum l && isNum r then some (.vbool (decide (toRat l ≤ toRat r))) else none

/-- Python `left and right` / `left or right` applied to already-computed
operand values (the code computes both operands first): the result is one of
the two operand values, selected by the truthiness of the left one.  Total. -/
def applyLog : ALog → Val → Val → Val
  | .and, l, r => if truthy l then r else l
  | .or, l, r => if truthy l then l else r

/-- The unary branch of `_evaluate_expression`: `NOT` is Python `not`
(truthiness, total); `-` requires a number and raises on `None`. -/
def applyUn : AUn → Val → Option Val
  | .not, v => some (.vbool (!truthy v))
  | .neg, .vbool b => some (.vint (-(if b then (1 : Int) else 0)))
  | .neg, .vint n => some (.vint (-n))
  | .neg, .vreal q => some (.vreal (-q))
  | .neg, .vnone => none

/-- One memory area of `PLCMemory` (a Python `dict` keyed by variable name),
as an association list. -/
abbrev Env := List (String × Val)

/-- Python `name in d` followed by `d[name]`: first binding of the name. -/
def envGet (e : Env) (n : String) : Option Val :=
  (e.find? (fun p => p.1 == n)).map (fun p => p.2)

/-- Python `d[name] = v`: overwrite the existing binding or append a new one. -/
def envSet : Env → String → Val → Env
  | [], n, v => [(n, v)]
  | (k, w) :: rest, n, v =>
      if k = n then (k, v) :: rest else (k, w) :: envSet rest n v

/-- Python `name in d`. -/
def envHas (e : Env) (n : String) : Bool :=
  e.any (fun p => p.1 == n)

/-- `PLCMemory`: the three memory areas. -/
structure Mem where
  inputs : Env
  outputs : Env
  internal : Env
deriving DecidableEq, Repr

/-- The three variable classes accepted by `PLCMemory.set_value`. -/
inductive VarClass where
  | input | output | internal
deriving DecidableEq, Repr

/-- `PLCMemory.get_value`: look the name up in inputs, then outputs, then
internal; a miss logs a warning and returns Python `None` (not an error). -/
def getValue (m : Mem) (n : String) : Val :=
  match envGet m.inputs n with
  | some v => v
  | none =>
    match envGet m.outputs n with
    | some v => v
    | none =>
      match envGet m.internal n with
      | some v => v
      | none => .vnone

/-- `PLCMemory.set_value`. -/
def setValue (m : Mem) (n : String) (v : Val) : VarClass → Mem
  | .input => { m with inputs := envSet m.inputs n v }
  | .output => { m with outputs := envSet m.outputs n v }
  | .internal => { m with internal := envSet m.internal n v }

/-- Parsed expressions (`STTransformer` output dictionaries, by their `type`
tag: `literal`, `variable`, `binary_op`, `comparison`, `logical_op`,
`unary_op`). -/
inductive Expr where
  | lit (v : Val)
  | varE (n : String)
  | bin (op : ABin) (l r : Expr)
  | cmp (op : ACmp) (l r : Expr)
  | log (op : ALog) (l r : Expr)
  | un (op : AUn) (e : Expr)
deriving DecidableEq, Repr

/-- Result of evaluating an expression: the value (`none` = a Python
exception was raised), the memory afterwards, and the ordered list of
variable names looked up.  `_evaluate_expression` never mutates memory, but
the embedding passes it through every call exactly as the Python
interpreter threads `self.memory`, so that this is a theorem rather than an
assumption. -/
structure ERes where
  val : Option Val
  mem : Mem
  reads : List String
deriving DecidableEq, Repr

/-- `PLCRuntime._evaluate_expression`.  For every binary node the code first
evaluates the left operand, then the right one, then applies the operator;
an exception raised by the left operand propagates before the right operand
is evaluated. -/
def evalExpr : Expr → Mem → ERes
  | .lit v, m => ⟨some v, m, []⟩
  | .varE n, m => ⟨some (getValue m n), m, [n]⟩
  | .bin op l r, m =>
      let rl := evalExpr l m
      match rl.val with
      | none => ⟨none, rl.mem, rl.reads⟩
      | some lv =>
        let rr := evalExpr r rl.mem
        match rr.val with
        | none => ⟨none, rr.mem, rl.reads ++ rr.reads⟩
        | some rv => ⟨applyBin op lv rv, rr.mem, rl.reads ++ rr.reads⟩
  | .cmp op l r, m =>
      let rl := evalExpr l m
      match rl.val with
      | none => ⟨none, rl.mem, rl.reads⟩
      | some lv =>
        let rr := evalExpr r rl.mem
        match rr.val with
        | none => ⟨none, rr.mem, rl.reads ++ rr.reads⟩
        | some rv => ⟨applyCmp op lv rv, rr.mem, rl.reads ++ rr.reads⟩
  | .log op l r, m =>
      let rl := evalExpr l m
      match rl.val with
      | none => ⟨none, rl.mem, rl.reads⟩
      | some lv =>
        let rr := evalExpr r rl.mem
        match rr.val with
        | none => ⟨none, rr.mem, rl.reads ++ rr.reads⟩
        | some rv => ⟨some (applyLog op lv rv), rr.mem, rl.reads ++ rr.reads⟩
  | .un op e, m =>
      let re := evalExpr e m
      match re.val with
      | none => ⟨none, re.mem, re.reads⟩
      | some v => ⟨applyUn op v, re.mem, re.reads⟩

mutual

/-- Parsed statements (`STTransformer` output dictionaries, by their `type`
tag: `assignment`, `if`, `function_call`).  `elseB = Block.nil` models both a
missing and an empty `else_block` (the Python code skips a falsy
`else_block`, and executing an empty block is a no-op). -/
inductive Stmt where
  | assign (target : String) (value : Expr)
  | sif (cond : Expr) (thenB : Block) (elsifs : Elsifs) (elseB : Block)
  | call (name : String)

/-- An ordered statement list (a `then_block` / `else_block` / program
body). -/
inductive Block where
  | nil
  | cons (s : Stmt) (rest : Block)

/-- The ordered `elsif_clauses` list of an `if` statement. -/
inductive Elsifs where
  | nil
  | cons (c : Expr) (b : Block) (rest : Elsifs)

end

/-- Result of executing a statement or block: the memory afterwards, whether
execution completed without raising (`ok`), and the variable reads performed
(in order).  On `ok = false` the memory holds the mutations made before the
exception, exactly as in Python. -/
structure SRes where
  mem : Mem
  ok : Bool
  reads : List String

mutual

/-- `PLCRuntime._execute_statement`.  For an assignment the value is
evaluated first; then the target is classified: a declared output is
written, a declared input is rejected (logged, memory unchanged), anything
else is written to the internal area (declare-on-assign). -/
def execStmt : Stmt → Mem → SRes
  | .assign t e, m =>
      let r := evalExpr e m
      match r.val with
      | none => ⟨r.mem, false, r.reads⟩
      | some v =>
        if envHas r.mem.outputs t then ⟨setValue r.mem t v .output, true, r.reads⟩
        else if envHas r.mem.inputs t then ⟨r.mem, true, r.reads⟩
        else ⟨setValue r.mem t v .internal, true, r.reads⟩
  | .sif c th el els, m =>
      let rc := evalExpr c m
      match rc.val with
      | none => ⟨rc.mem, false, rc.reads⟩
      | some cv =>
        if truthy cv then
          let rb := execBlock th rc.mem
          ⟨rb.mem, rb.ok, rc.reads ++ rb.reads⟩
        else
          let rel := execElsifs el rc.mem
          if rel.2 then ⟨rel.1.mem, rel.1.ok, rc.reads ++ rel.1.reads⟩
          else
            let re := execBlock els rel.1.mem
            ⟨re.mem, re.ok, rc.reads ++ rel.1.reads ++ re.reads⟩
  | .call _, m => ⟨m, true, []⟩

/-- Execute the statements of a block in order; an exception aborts the
remainder of the block (`PLCRuntime.execute_cycle`'s statement loop runs
inside one `try`). -/
def execBlock : Block → Mem → SRes
  | .nil, m => ⟨m, true, []⟩
  | .cons s rest, m =>
      let r := execStmt s m
      if r.ok then
        let rr := execBlock rest r.mem
        ⟨rr.mem, rr.ok, r.reads ++ rr.reads⟩
      else r

/-- The `elsif_clauses` loop of `PLCRuntime._execute_if_statement`: evaluate
conditions in order; on the first truthy one execute its block and return
handled (`true`); an exception is also handled (it propagates without
reaching the `else` block).  If no clause fires, return the accumulated
condition reads and handled = `false` so the caller runs the `else` block. -/
def execElsifs : Elsifs → Mem → SRes × Bool
  | .nil, m => (⟨m, true, []⟩, false)
  | .cons c b rest, m =>
      let rc := evalExpr c m
      match rc.val with
      | none => (⟨rc.mem, false, rc.reads⟩, true)
      | some cv =>
        if truthy cv then
          let rb := execBlock b rc.mem
          (⟨rb.mem, rb.ok, rc.reads ++ rb.reads⟩, true)
        else
          let rr := execElsifs rest rc.mem
          (⟨rr.1.mem, rr.1.ok, rc.reads ++ rr.1.reads⟩, rr.2)

end

/-- A variable declaration as built by `STTransformer.declaration` (field
`type` of the Python `Variable` dataclass is `vtype` here).  The parser
always stores a parsed literal expression as the initial value, so
`initialValue` is modelled as an optional parsed expression. -/
structure Variable where
  name : String
  vtype : String
  initialValue : Option Expr
  isInput : Bool
  isOutput : Bool

/-- A parsed `Program` (name, declared variables in declaration order,
statements). -/
structure Program where
  pname : String
  pvars : List Variable
  statements : Block

/-- `PLCRuntime._get_default_value`: a parsed literal initial value is
returned as-is; a parsed non-literal initial value falls through to the
type defaults; otherwise BOOL ↦ `False`, INT ↦ `0`, REAL ↦ `0.0`,
TIME ↦ `0`, and an unknown type name gives Python `None`. -/
def getDefaultValue (tn : String) (init : Option Expr) : Val :=
  match init with
  | some (.lit v) => v
  | _ =>
    if tn = "BOOL" then .vbool false
    else if tn = "INT" then .vint 0
    else if tn = "REAL" then .vreal 0
    else if tn = "TIME" then .vint 0
    else .vnone

/-- Place one declared variable into its memory area
(`PLCRuntime._initialize_memory` loop body). -/
def placeVar (m : Mem) (v : Variable) : Mem :=
  if v.isInput then { m with inputs := envSet m.inputs v.name (getDefaultValue v.vtype v.initialValue) }
  else if v.isOutput then { m with outputs := envSet m.outputs v.name (getDefaultValue v.vtype v.initialValue) }
  else { m with internal := envSet m.internal v.name (getDefaultValue v.vtype v.initialValue) }

/-- The `_initialize_memory` loop over `program.variables`. -/
def initMemoryAux (m : Mem) : List Variable → Mem
  | [] => m
  | v :: rest => initMemoryAux (placeVar m v) rest

/-- `PLCRuntime._initialize_memory`: memory built from the program's
declarations, starting empty. -/
def initializeMemory (vars : List Variable) : Mem :=
  initMemoryAux ⟨[], [], []⟩ vars

/-- `PLCRuntime._initialize_default_memory`: the hardcoded HVAC memory used
when no program is loaded. -/
def defaultMemory : Mem :=
  { inputs :=
      [("SystemEnable", .vbool false), ("RoomTemperature", .vreal 20),
       ("RoomHumidity", .vreal 50), ("SetpointTemp", .vreal 22),
       ("SetpointHumidity", .vreal 45), ("TempDeadband", .vreal 1),
       ("HumidityDeadband", .vreal 5)]
    outputs :=
      [("FanSpeed", .vint 0), ("ChillerOn", .vbool false),
       ("SystemStatus", .vint 0), ("AlarmActive", .vbool false)]
    internal :=
      [("TempError", .vreal 0), ("HumidityError", .vreal 0),
       ("CoolingRequired", .vbool false), ("DehumidRequired", .vbool false)] }

/-- `PLCRuntime` state (the real-time field `last_cycle_time` is not
modelled; no claim concerns it). -/
structure Runtime where
  program : Option Program
  memory : Mem
  cycleCount : Nat
  systemEnabled : Val

/-- The `PLCRuntime.__init__` constructor. -/
def mkRuntime (p : Option Program) : Runtime :=
  { program := p
    memory :=
      match p with
      | some pr => initializeMemory pr.pvars
      | none => defaultMemory
    cycleCount := 0
    systemEnabled := .vbool false }

/-- `self.memory.outputs['AlarmActive'] = True`, the `except` handler of
`execute_cycle`. -/
def setAlarm (m : Mem) : Mem :=
  { m with outputs := envSet m.outputs "AlarmActive" (.vbool true) }

/-- `PLCRuntime._execute_default_logic`, with explicit state passing and an
ok flag (a `KeyError` on a missing input or a `TypeError` on a non-numeric
operand raises, leaving the mutations made so far in place). -/
def execDefaultLogic (se : Val) (m : Mem) : Mem × Bool :=
  if truthy se = false then
    let m1 := { m with outputs := envSet m.outputs "FanSpeed" (.vint 0) }
    let m2 := { m1 with outputs := envSet m1.outputs "ChillerOn" (.vbool false) }
    let m3 := { m2 with outputs := envSet m2.outputs "SystemStatus" (.vint 0) }
    (m3, true)
  else
    match envGet m.inputs "RoomTemperature" with
    | none => (m, false)
    | some roomT =>
    match envGet m.inputs "SetpointTemp" with
    | none => (m, false)
    | some spT =>
    match pySub roomT spT with
    | none => (m, false)
    | some tempError =>
    match envGet m.inputs "RoomHumidity" with
    | none => (m, false)
    | some roomH =>
    match envGet m.inputs "SetpointHumidity" with
    | none => (m, false)
    | some spH =>
    match pySub roomH spH with
    | none => (m, false)
    | some humErr =>
    let mA := { m with internal := envSet m.internal "TempError" tempError }
    let mB := { mA with internal := envSet mA.internal "HumidityError" humErr }
    match envGet mB.inputs "TempDeadband" with
    | none => (mB, false)
    | some tdb =>
    match pyGtB tempError tdb with
    | none => (mB, false)
    | some coolingRequired =>
    match envGet mB.inputs "HumidityDeadband" with
    | none => (mB, false)
    | some hdb =>
    match pyGtB humErr hdb with
    | none => (mB, false)
    | some dehumidRequired =>
    let mC := { mB with internal := envSet mB.internal "CoolingRequired" (.vbool coolingRequired) }
    let mD := { mC with internal := envSet mC.internal "DehumidRequired" (.vbool dehumidRequired) }
    if coolingRequired || dehumidRequired then
      let mE := { mD with outputs := envSet mD.outputs "ChillerOn" (.vbool true) }
      let mF := { mE with outputs := envSet mE.outputs "SystemStatus" (.vint 1) }
      if coolingRequired then
        match pyMul tempError (.vint 20) with
        | none => (mF, false)
        | some prod =>
        match pyToInt prod with
        | none => (mF, false)
        | some tv =>
        ({ mF with outputs := envSet mF.outputs "FanSpeed" (.vint (min 100 (max 30 tv))) }, true)
      else
        ({ mF with outputs := envSet mF.outputs "FanSpeed" (.vint 50) }, true)
    else
      let mE := { mD with outputs := envSet mD.outputs "ChillerOn" (.vbool false) }
      let mF := { mE with outputs := envSet mE.outputs "FanSpeed" (.vint 20) }
      ({ mF with outputs := envSet mF.outputs "SystemStatus" (.vint 2) }, true)

/-- Does the loaded program have a truthy (non-empty) statement list
(`if self.program and self.program.statements`)? -/
def blockNonEmpty : Block → Bool
  | .nil => false
  | .cons _ _ => true

/-- Shared tail of `execute_cycle` when it falls back to the default HVAC
logic, including the `except` handler. -/
def runDefaultBranch (rt : Runtime) (cc : Nat) (se : Val) : Runtime :=
  match execDefaultLogic se rt.memory with
  | (m2, true) => { rt with cycleCount := cc, systemEnabled := se, memory := m2 }
  | (m2, false) => { rt with cycleCount := cc, systemEnabled := se, memory := setAlarm m2 }

/-- `PLCRuntime.execute_cycle`: bump the cycle counter, snapshot
`system_enabled` from `inputs.get('SystemEnable', False)`, execute the
program statements if a program with a non-empty statement list is loaded
(otherwise the default HVAC logic), and on any raised exception set the
`AlarmActive` output. -/
def executeCycle (rt : Runtime) : Runtime :=
  let cc := rt.cycleCount + 1
  let se := (envGet rt.memory.inputs "SystemEnable").getD (.vbool false)
  match rt.program with
  | some p =>
      if blockNonEmpty p.statements then
        let r := execBlock p.statements rt.memory
        if r.ok then { rt with cycleCount := cc, systemEnabled := se, memory := r.mem }
        else { rt with cycleCount := cc, systemEnabled := se, memory := setAlarm r.mem }
      else runDefaultBranch rt cc se
  | none => runDefaultBranch rt cc se

/-- The Modbus server's holding-register table (`ModbusSequentialDataBlock`),
as an association list from zero-based address to register word; absent
addresses read as the initial `0`.  Register words are modelled as integers
(the claims only concern which cycle a written word becomes visible in, not
16-bit wraparound). -/
abbrev Regs := List (Nat × Int)

/-- `context.getValues(3, address, 1)[0]`. -/
def regGet (r : Regs) (a : Nat) : Int :=
  ((r.find? (fun p => p.1 == a)).map (fun p => p.2)).getD 0

/-- `context.setValues(3, address, [value])`. -/
def regSet : Regs → Nat → Int → Regs
  | [], a, v => [(a, v)]
  | (k, w) :: rest, a, v =>
      if k = a then (k, v) :: rest else (k, w) :: regSet rest a v

/-- The fixed `ModbusInterface.register_map`, already reduced to zero-based
offsets (the code always subtracts the base `40001`). -/
def regOffset : String → Nat
  | "SystemEnable" => 0
  | "SetpointTemp" => 1
  | "SetpointHumidity" => 2
  | "TempDeadband" => 3
  | "HumidityDeadband" => 4
  | "RoomTemperature" => 100
  | "RoomHumidity" => 101
  | "FanSpeed" => 102
  | "ChillerOn" => 103
  | "SystemStatus" => 104
  | "AlarmActive" => 105
  | "SensorTemp" => 200
  | "SensorHumidity" => 201
  | "ActuatorFanSpeed" => 300
  | "ActuatorChiller" => 301
  | _ => 0

/-- `ModbusInterface.read_inputs`: when the plant client is connected and the
read succeeds (`plant = some (t, h)` holds the two sensor register words),
decode ×10 fixed point into `Memory.inputs` and mirror the status registers
into the server table; otherwise (`none`: no client, or a read error) leave
everything unchanged. -/
def readInputs (plant : Option (Int × Int)) (rt : Runtime) (regs : Regs) :
    Runtime × Regs :=
  match plant with
  | none => (rt, regs)
  | some (t, h) =>
      let temp : ℚ := (t : ℚ) / 10
      let hum : ℚ := (h : ℚ) / 10
      let m1 := { rt.memory with inputs := envSet rt.memory.inputs "RoomTemperature" (.vreal temp) }
      let m2 := { m1 with inputs := envSet m1.inputs "RoomHumidity" (.vreal hum) }
      let regs1 := regSet regs (regOffset "RoomTemperature") (ratTrunc (temp * 10))
      let regs2 := regSet regs1 (regOffset "RoomHumidity") (ratTrunc (hum * 10))
      ({ rt with memory := m2 }, regs2)

/-- `outputs.get(name, default)` as used by `update_server_registers`. -/
def outGetD (m : Mem) (n : String) (d : Val) : Val :=
  (envGet m.outputs n).getD d

/-- `ModbusInterface.update_server_registers`: copy the five command
registers of the server table into `Memory.inputs` (decoding ×10 fixed
point), then publish the four status outputs back into the server table.
All four `int(...)` conversions happen before any register write, so a
conversion error (`TypeError` on a `None` output) leaves the register table
untouched; the command copies into `Memory.inputs` have already happened
(the whole body is one `try`). -/
def updateServerRegisters (rt : Runtime) (regs : Regs) :
    Runtime × Regs × Bool :=
  let m1 := { rt.memory with inputs := envSet rt.memory.inputs "SystemEnable" (.vbool (regGet regs (regOffset "SystemEnable") != 0)) }
  let m2 := { m1 with inputs := envSet m1.inputs "SetpointTemp" (.vreal ((regGet regs (regOffset "SetpointTemp") : ℚ) / 10)) }
  let m3 := { m2 with inputs := envSet m2.inputs "SetpointHumidity" (.vreal ((regGet regs (regOffset "SetpointHumidity") : ℚ) / 10)) }
  let m4 := { m3 with inputs := envSet m3.inputs "TempDeadband" (.vreal ((regGet regs (regOffset "TempDeadband") : ℚ) / 10)) }
  let m5 := { m4 with inputs := envSet m4.inputs "HumidityDeadband" (.vreal ((regGet regs (regOffset "HumidityDeadband") : ℚ) / 10)) }
  let rt2 := { rt with memory := m5 }
  match pyToInt (outGetD m5 "FanSpeed" (.vint 0)),
        pyToInt (outGetD m5 "ChillerOn" (.vbool false)),
        pyToInt (outGetD m5 "SystemStatus" (.vint 0)),
        pyToInt (outGetD m5 "AlarmActive" (.vbool false)) with
  | some f, some c, some s, some a =>
      let regs1 := regSet regs (regOffset "FanSpeed") f
      let regs2 := regSet regs1 (regOffset "ChillerOn") c
      let regs3 := regSet regs2 (regOffset "SystemStatus") s
      let regs4 := regSet regs3 (regOffset "AlarmActive") a
      (rt2, regs4, true)
  | _, _, _, _ => (rt2, regs, false)

/-- One iteration of `PLCSimulator.run_cycle`: read plant sensors into
`Memory.inputs`, run the interpreter, write the actuators to the plant
(`write_outputs` touches neither `Memory` nor the server table and is
therefore not part of the state transition), and finally copy the server
table's command block into `Memory.inputs` while publishing status.  The
server table `regs` is the state a concurrent supervisory client reads and
writes between iterations. -/
def runIteration (plant : Option (Int × Int)) (rt : Runtime) (regs : Regs) :
    Runtime × Regs :=
  let s1 := readInputs plant rt regs
  let rt2 := executeCycle s1.1
  let s3 := updateServerRegisters rt2 s1.2
  (s3.1, s3.2.1)

/-- The runtime state as it stands when the iteration's interpreter step has
just run, before the command block is copied (the value handed to
`update_server_registers` inside `runIteration`). -/
def midCycleRuntime (plant : Option (Int × Int)) (rt : Runtime) (regs : Regs) :
    Runtime :=
  executeCycle (readInputs plant rt regs).1

/-- Concatenation of elsif-clause lists (used to single out the first clause
whose condition is true). -/
def Elsifs.append : Elsifs → Elsifs → Elsifs
  | .nil, e2 => e2
  | .cons c b rest, e2 => .cons c b (rest.append e2)

/-- Every clause's condition evaluates without error to a falsy value. -/
def elsifsAllFalsy : Elsifs → Mem → Bool
  | .nil, _ => true
  | .cons c _ rest, m =>
      match (evalExpr c m).val with
      | some v => !truthy v && elsifsAllFalsy rest m
      | none => false

/-- The variable reads performed by evaluating every clause condition in
order (expression evaluation leaves memory unchanged, so all conditions are
evaluated against the same memory). -/
def elsifsCondReads : Elsifs → Mem → List String
  | .nil, _ => []
  | .cons c _ rest, m => (evalExpr c m).reads ++ elsifsCondReads rest m

mutual

/-- The statement contains no assignment anywhere (so, by the claim that only
assignments mutate memory, executing it must leave memory unchanged). -/
def stmtNoAssign : Stmt → Bool
  | .assign _ _ => false
  | .sif _ th el els => blockNoAssign th && elsifsNoAssign el && blockNoAssign els
  | .call _ => true

/-- No assignment anywhere in the block. -/
def blockNoAssign : Block → Bool
  | .nil => true
  | .cons s rest => stmtNoAssign s && blockNoAssign rest

/-- No assignment anywhere in the elsif clauses. -/
def elsifsNoAssign : Elsifs → Bool
  | .nil => true
  | .cons _ b rest => blockNoAssign b && elsifsNoAssign rest

end

/-- Modelled from the spec: `round` in the claimed fan-speed formula
`FanSpeed = clamp(30, 100, round(temp_error * 20))` — rounding to the
nearest integer (halves up; the counterexample below has fractional part
`.6`, so any tie-breaking convention gives the same verdict). -/
def specRoundNearest (q : ℚ) : Int :=
  ⌊q + 1 / 2⌋

/-- Modelled from the spec: the claimed cooling fan-speed formula
`clamp(30, 100, round(temp_error * 20))`, where `clamp(lo, hi, v)` bounds
`v` into `[lo, hi]`. -/
def specFanSpeedClaim (tempError : ℚ) : Int :=
  min 100 (max 30 (specRoundNearest (tempError * 20)))

/-- A program whose only statement references the undeclared name
`Missing` (`X := Missing;`), with a declared `AlarmActive` output
initialised to `FALSE` (the counterexample program for the missing-variable
claim). -/
def progMissing : Program :=
  { pname := "P"
    pvars := [⟨"AlarmActive", "BOOL", some (.lit (.vbool false)), false, true⟩]
    statements := .cons (.assign "X" (.varE "Missing")) .nil }

/-- A program whose only statement uses the undeclared name in arithmetic
(`X := Missing + 1;`), which raises a `TypeError` on `None + 1`. -/
def progTypeErr : Program :=
  { pname := "P"
    pvars := [⟨"AlarmActive", "BOOL", some (.lit (.vbool false)), false, true⟩]
    statements := .cons (.assign "X" (.bin .add (.varE "Missing") (.lit (.vint 1)))) .nil }

/-- The default HVAC memory with `SystemEnable = TRUE` and
`RoomTemperature = 25.0` (spec Scenario B: temp_error = 3 > deadband 1). -/
def memScenarioB : Mem :=
  { defaultMemory with
      inputs := envSet (envSet defaultMemory.inputs "SystemEnable" (.vbool true))
        "RoomTemperature" (.vreal 25) }

/-- The default HVAC memory with `SystemEnable = TRUE` and
`RoomTemperature = 25.08`: temp_error = 3.08, so `temp_error * 20 = 61.6`,
where truncation (61) and rounding to nearest (62) disagree.  (In Python
floats: `25.08 - 22 = 3.0799999999999996`, `* 20 = 61.599999999999994`,
`int(...) = 61`, `round(...) = 62` — the same verdict as in exact
rationals.) -/
def memCooling2508 : Mem :=
  { defaultMemory with
      inputs := envSet (envSet defaultMemory.inputs "SystemEnable" (.vbool true))
        "RoomTemperature" (.vreal (2508 / 100)) }

/-- A default-controller runtime (no program loaded) over a given memory. -/
def rtWithMem (m : Mem) : Runtime :=
  { program := none, memory := m, cycleCount := 0, systemEnabled := .vbool false }

theorem envGet_cons (k : String) (w : Val) (rest : Env) (n : String) :
    envGet ((k, w) :: rest) n = if k = n then some w else envGet rest n := by
  by_cases h : k = n
  · rw [if_pos h]
    unfold envGet
    rw [List.find?_cons_of_pos rest (by simp [h])]
    rfl
  · rw [if_neg h]
    unfold envGet
    rw [List.find?_cons_of_neg rest (by simp [h])]

theorem envGet_envSet_self (e : Env) (n : String) (v : Val) :
    envGet (envSet e n v) n = some v := by
  induction e with
  | nil => simp [envSet, envGet_cons]
  | cons p rest ih =>
      obtain ⟨k, w⟩ := p
      by_cases h : k = n
      · subst h; simp [envSet, envGet_cons]
      · simp [envSet, h, envGet_cons, ih]

theorem envGet_envSet_ne (e : Env) (k n : String) (v : Val) (h : k ≠ n) :
    envGet (envSet e k v) n = envGet e n := by
  induction e with
  | nil => simp [envSet, envGet_cons, h]
  | cons p rest ih =>
      obtain ⟨a, w⟩ := p
      by_cases ha : a = k
      · subst ha; simp [envSet, envGet_cons, h]
      · simp [envSet, ha, envGet_cons, ih]

theorem regGet_cons (k : Nat) (w : Int) (rest : Regs) (a : Nat) :
    regGet ((k, w) :: rest) a = if k = a then w else regGet rest a := by
  by_cases h : k = a
  · rw [if_pos h]
    unfold regGet
    rw [List.find?_cons_of_pos rest (by simp [h])]
    rfl
  · rw [if_neg h]
    unfold regGet
    rw [List.find?_cons_of_neg rest (by simp [h])]

theorem regGet_regSet_self (r : Regs) (a : Nat) (v : Int) :
    regGet (regSet r a v) a = v := by
  induction r with
  | nil => simp [regSet, regGet_cons]
  | cons p rest ih =>
      obtain ⟨k, w⟩ := p
      by_cases h : k = a
      · subst h; simp [regSet, regGet_cons]
      · simp [regSet, h, regGet_cons, ih]

theorem regGet_regSet_ne (r : Regs) (k a : Nat) (v : Int) (h : k ≠ a) :
    regGet (regSet r k v) a = regGet r a := by
  induction r with
  | nil => simp [regSet, regGet_cons, h]
  | cons p rest ih =>
      obtain ⟨b, w⟩ := p
      by_cases hb : b = k
      · subst hb; simp [regSet, regGet_cons, h]
      · simp [regSet, hb, regGet_cons, ih]

theorem evalExpr_mem (e : Expr) : ∀ m : Mem, (evalExpr e m).mem = m := by
  induction e with
  | lit v => intro m; rfl
  | varE n => intro m; rfl
  | bin op l r ihl ihr =>
      intro m
      have hm := ihl m
      cases hl : (evalExpr l m).val with
      | none => simp [evalExpr, hl, hm]
      | some lv =>
          cases hr : (evalExpr r m).val with
          | none => simp [evalExpr, hl, hm, hr, ihr m]
          | some rv => simp [evalExpr, hl, hm, hr, ihr m]
  | cmp op l r ihl ihr =>
      intro m
      have hm := ihl m
      cases hl : (evalExpr l m).val with
      | none => simp [evalExpr, hl, hm]
      | some lv =>
          cases hr : (evalExpr r m).val with
          | none => simp [evalExpr, hl, hm, hr, ihr m]
          | some rv => simp [evalExpr, hl, hm, hr, ihr m]
  | log op l r ihl ihr =>
      intro m
      have hm := ihl m
      cases hl : (evalExpr l m).val with
      | none => simp [evalExpr, hl, hm]
      | some lv =>
          cases hr : (evalExpr r m).val with
          | none => simp [evalExpr, hl, hm, hr, ihr m]
          | some rv => simp [evalExpr, hl, hm, hr, ihr m]
  | un op e ih =>
      intro m
      cases he : (evalExpr e m).val with
      | none => simp [evalExpr, he, ih m]
      | some v => simp [evalExpr, he, ih m]

theorem evalExpr_cmp_reads (op : ACmp) (l r : Expr) (m : Mem)
    (h : (evalExpr l m).val.isSome = true) :
    (evalExpr (.cmp op l r) m).reads = (evalExpr l m).reads ++ (evalExpr r m).reads := by
  have hm := evalExpr_mem l m
  cases hl : (evalExpr l m).val with
  | none => rw [hl] at h; cases h
  | some lv =>
      cases hr : (evalExpr r m).val with
      | none => simp [evalExpr, hl, hm, hr]
      | some rv => simp [evalExpr, hl, hm, hr]

theorem evalExpr_log_reads (op : ALog) (l r : Expr) (m : Mem)
    (h : (evalExpr l m).val.isSome = true) :
    (evalExpr (.log op l r) m).reads = (evalExpr l m).reads ++ (evalExpr r m).reads := by
  have hm := evalExpr_mem l m
  cases hl : (evalExpr l m).val with
  | none => rw [hl] at h; cases h
  | some lv =>
      cases hr : (evalExpr r m).val with
      | none => simp [evalExpr, hl, hm, hr]
      | some rv => simp [evalExpr, hl, hm, hr]

theorem applyCmp_isBool (op : ACmp) (a b v : Val)
    (h : applyCmp op a b = some v) : isBoolVal v = true := by
  cases op <;> simp only [applyCmp] at h
  case eq => cases h; rfl
  case ne => cases h; rfl
  all_goals
    split at h
    · cases h; rfl
    · cases h

theorem evalExpr_cmp_isBool (op : ACmp) (l r : Expr) (m : Mem) (v : Val)
    (h : (evalExpr (.cmp op l r) m).val = some v) : isBoolVal v = true := by
  have hm := evalExpr_mem l m
  cases hl : (evalExpr l m).val with
  | none => simp [evalExpr, hl] at h
  | some lv =>
      cases hr : (evalExpr r m).val with
      | none => simp [evalExpr, hl, hm, hr] at h
      | some rv =>
          simp [evalExpr, hl, hm, hr] at h
          exact applyCmp_isBool op lv rv v h

theorem evalExpr_log_val (op : ALog) (l r : Expr) (m : Mem) (lv rv : Val)
    (hl : (evalExpr l m).val = some lv) (hr : (evalExpr r m).val = some rv) :
    (evalExpr (.log op l r) m).val = some (applyLog op lv rv) := by
  have hm := evalExpr_mem l m
  simp [evalExpr, hl, hm, hr]

mutual

theorem execStmt_inputs : ∀ (s : Stmt) (m : Mem), (execStmt s m).mem.inputs = m.inputs
  | .assign t e, m => by
      have hm := evalExpr_mem e m
      cases hv : (evalExpr e m).val with
      | none => simp [execStmt, hv, hm]
      | some v =>
          by_cases ho : envHas m.outputs t
          · simp [execStmt, hv, hm, ho, setValue]
          · by_cases hi : envHas m.inputs t
            · simp [execStmt, hv, hm, ho, hi]
            · simp [execStmt, hv, hm, ho, hi, setValue]
  | .sif c th el els, m => by
      have hm := evalExpr_mem c m
      cases hv : (evalExpr c m).val with
      | none => simp [execStmt, hv, hm]
      | some cv =>
          by_cases ht : truthy cv
          · have hb := execStmt_inputs_thenAux th m
            simp [execStmt, hv, hm, ht, hb]
          · have he := execElsifs_inputs el m
            by_cases hh : (execElsifs el m).2
            · simp [execStmt, hv, hm, ht, hh, he]
            · have h2 := execStmt_inputs_thenAux els (execElsifs el m).1.mem
              simp [execStmt, hv, hm, ht, hh, he, h2]
  | .call _, _ => rfl

theorem execStmt_inputs_thenAux : ∀ (b : Block) (m : Mem), (execBlock b m).mem.inputs = m.inputs
  | .nil, _ => rfl
  | .cons s rest, m => by
      have h1 := execStmt_inputs s m
      by_cases hk : (execStmt s m).ok
      · have h2 := execStmt_inputs_thenAux rest (execStmt s m).mem
        simp [execBlock, hk, h1, h2]
      · simp [execBlock, hk, h1]

theorem execElsifs_inputs : ∀ (el : Elsifs) (m : Mem), (execElsifs el m).1.mem.inputs = m.inputs
  | .nil, _ => rfl
  | .cons c b rest, m => by
      have hm := evalExpr_mem c m
      cases hv : (evalExpr c m).val with
      | none => simp [execElsifs, hv, hm]
      | some cv =>
          by_cases ht : truthy cv
          · have hb := execStmt_inputs_thenAux b m
            simp [execElsifs, hv, hm, ht, hb]
          · have hr := execElsifs_inputs rest m
            simp [execElsifs, hv, hm, ht, hr]

end

/-- Convenient alias: executing any block never changes `Memory.inputs`. -/
theorem execBlock_inputs (b : Block) (m : Mem) :
    (execBlock b m).mem.inputs = m.inputs :=
  execStmt_inputs_thenAux b m

theorem execDefaultLogic_inputs (se : Val) (m : Mem) :
    (execDefaultLogic se m).1.inputs = m.inputs := by
  unfold execDefaultLogic
  dsimp only
  repeat' first
    | rfl
    | split

theorem runDefaultBranch_inputs (rt : Runtime) (cc : Nat) (se : Val) :
    (runDefaultBranch rt cc se).memory.inputs = rt.memory.inputs := by
  have hd := execDefaultLogic_inputs se rt.memory
  unfold runDefaultBranch
  rcases h : execDefaultLogic se rt.memory with ⟨m2, ok⟩
  rw [h] at hd
  cases ok <;> simp [setAlarm] <;> exact hd

theorem executeCycle_inputs (rt : Runtime) :
    (executeCycle rt).memory.inputs = rt.memory.inputs := by
  unfold executeCycle
  cases hp : rt.program with
  | none => exact runDefaultBranch_inputs rt _ _
  | some p =>
      by_cases hb : blockNonEmpty p.statements
      · have h1 := execBlock_inputs p.statements rt.memory
        by_cases hk : (execBlock p.statements rt.memory).ok
        · simp [hb, hk, h1]
        · simp [hb, hk, setAlarm, h1]
      · simp only [hb, Bool.false_eq_true, if_false]
        exact runDefaultBranch_inputs rt _ _

theorem execElsifs_allFalsy : ∀ (el : Elsifs) (m : Mem),
    elsifsAllFalsy el m = true →
    execElsifs el m = (⟨m, true, elsifsCondReads el m⟩, false)
  | .nil, m => by intro h; rfl
  | .cons c b rest, m => by
      intro h
      have hm := evalExpr_mem c m
      cases hv : (evalExpr c m).val with
      | none => simp [elsifsAllFalsy, hv] at h
      | some v =>
          simp only [elsifsAllFalsy, hv, Bool.and_eq_true, Bool.not_eq_eq_eq_not,
            Bool.not_true] at h
          obtain ⟨hf, hrest⟩ := h
          simp [execElsifs, hv, hm, hf, execElsifs_allFalsy rest m hrest, elsifsCondReads]

theorem execElsifs_firstTrue : ∀ (pre : Elsifs) (ce : Expr) (be : Block)
    (post : Elsifs) (m : Mem) (w : Val),
    elsifsAllFalsy pre m = true →
    (evalExpr ce m).val = some w → truthy w = true →
    execElsifs (pre.append (.cons ce be post)) m =
      (⟨(execBlock be m).mem, (execBlock be m).ok,
        elsifsCondReads pre m ++ ((evalExpr ce m).reads ++ (execBlock be m).reads)⟩,
       true)
  | .nil, ce, be, post, m, w => by
      intro _ hce hw
      have hm := evalExpr_mem ce m
      simp [Elsifs.append, execElsifs, hce, hm, hw, elsifsCondReads]
  | .cons c b rest, ce, be, post, m, w => by
      intro hpre hce hw
      have hm := evalExpr_mem c m
      cases hv : (evalExpr c m).val with
      | none => simp [elsifsAllFalsy, hv] at hpre
      | some v =>
          simp only [elsifsAllFalsy, hv, Bool.and_eq_true, Bool.not_eq_eq_eq_not,
            Bool.not_true] at hpre
          obtain ⟨hf, hrest⟩ := hpre
          simp [Elsifs.append, execElsifs, hv, hm, hf,
            execElsifs_firstTrue rest ce be post m w hrest hce hw, elsifsCondReads]

mutual

theorem execStmt_noAssign : ∀ (s : Stmt) (m : Mem),
    stmtNoAssign s = true → (execStmt s m).mem = m
  | .assign t e, m => by intro h; simp [stmtNoAssign] at h
  | .sif c th el els, m => by
      intro h
      simp only [stmtNoAssign, Bool.and_eq_true] at h
      obtain ⟨⟨hth, hel⟩, hels⟩ := h
      have hm := evalExpr_mem c m
      cases hv : (evalExpr c m).val with
      | none => simp [execStmt, hv, hm]
      | some cv =>
          by_cases ht : truthy cv
          · have hb := execBlock_noAssign th m hth
            simp [execStmt, hv, hm, ht, hb]
          · have he := execElsifs_noAssign el m hel
            by_cases hh : (execElsifs el m).2
            · simp [execStmt, hv, hm, ht, hh, he]
            · have h2 := execBlock_noAssign els (execElsifs el m).1.mem hels
              rw [he] at h2
              simp [execStmt, hv, hm, ht, hh, he, h2]
  | .call _, _ => by intro _; rfl

theorem execBlock_noAssign : ∀ (b : Block) (m : Mem),
    blockNoAssign b = true → (execBlock b m).mem = m
  | .nil, _ => by intro _; rfl
  | .cons s rest, m => by
      intro h
      simp only [blockNoAssign, Bool.and_eq_true] at h
      obtain ⟨hs, hrest⟩ := h
      have h1 := execStmt_noAssign s m hs
      by_cases hk : (execStmt s m).ok
      · have h2 := execBlock_noAssign rest (execStmt s m).mem hrest
        rw [h1] at h2
        simp [execBlock, hk, h1, h2]
      · simp [execBlock, hk, h1]

theorem execElsifs_noAssign : ∀ (el : Elsifs) (m : Mem),
    elsifsNoAssign el = true → (execElsifs el m).1.mem = m
  | .nil, _ => by intro _; rfl
  | .cons c b rest, m => by
      intro h
      simp only [elsifsNoAssign, Bool.and_eq_true] at h
      obtain ⟨hb, hrest⟩ := h
      have hm := evalExpr_mem c m
      cases hv : (evalExpr c m).val with
      | none => simp [execElsifs, hv, hm]
      | some cv =>
          by_cases ht : truthy cv
          · have h1 := execBlock_noAssign b m hb
            simp [execElsifs, hv, hm, ht, h1]
          · have h1 := execElsifs_noAssign rest m hrest
            simp [execElsifs, hv, hm, ht, h1]

end

theorem execDefaultLogic_disabled (se : Val) (m : Mem)
    (hse : truthy se = false) :
    execDefaultLogic se m =
      ({ m with outputs := envSet (envSet (envSet m.outputs "FanSpeed" (.vint 0))
          "ChillerOn" (.vbool false)) "SystemStatus" (.vint 0) }, true) := by
  unfold execDefaultLogic
  rw [if_pos hse]

theorem execDefaultLogic_cooling (se : Val) (m : Mem) (t s h sh d hd : ℚ)
    (hse : truthy se = true)
    (hT : envGet m.inputs "RoomTemperature" = some (.vreal t))
    (hS : envGet m.inputs "SetpointTemp" = some (.vreal s))
    (hH : envGet m.inputs "RoomHumidity" = some (.vreal h))
    (hSH : envGet m.inputs "SetpointHumidity" = some (.vreal sh))
    (hD : envGet m.inputs "TempDeadband" = some (.vreal d))
    (hHD : envGet m.inputs "HumidityDeadband" = some (.vreal hd))
    (hcool : d < t - s) :
    (execDefaultLogic se m).2 = true ∧
    envGet (execDefaultLogic se m).1.outputs "ChillerOn" = some (.vbool true) ∧
    envGet (execDefaultLogic se m).1.outputs "SystemStatus" = some (.vint 1) ∧
    envGet (execDefaultLogic se m).1.outputs "FanSpeed" =
      some (.vint (min 100 (max 30 (ratTrunc ((t - s) * 20))))) := by
  have hsub1 : pySub (Val.vreal t) (Val.vreal s) = some (.vreal (t - s)) := by
    simp [pySub, isIntish, isNum, toRat]
  have hsub2 : pySub (Val.vreal h) (Val.vreal sh) = some (.vreal (h - sh)) := by
    simp [pySub, isIntish, isNum, toRat]
  have hgt1 : pyGtB (Val.vreal (t - s)) (Val.vreal d) = some true := by
    simp [pyGtB, isNum, toRat, hcool]
  have hmul : pyMul (Val.vreal (t - s)) (Val.vint 20) = some (.vreal ((t - s) * 20)) := by
    simp [pyMul, isIntish, isNum, toRat]
  unfold execDefaultLogic
  rw [if_neg (by simp [hse])]
  rw [hT, hS]
  dsimp only
  rw [hsub1, hH, hSH]
  dsimp only
  rw [hsub2]
  dsimp only
  rw [hD]
  dsimp only
  rw [hgt1]
  dsimp only
  rw [hHD]
  dsimp only
  cases hgt2 : pyGtB (Val.vreal (h - sh)) (Val.vreal hd) with
  | none => simp [pyGtB, isNum] at hgt2
  | some dehumid =>
      dsimp only
      rw [if_pos (by simp)]
      rw [if_pos rfl]
      rw [hmul]
      dsimp only [pyToInt]
      refine ⟨rfl, ?_, ?_, ?_⟩
      · rw [envGet_envSet_ne _ _ _ _ (by decide),
          envGet_envSet_ne _ _ _ _ (by decide), envGet_envSet_self]
      · rw [envGet_envSet_ne _ _ _ _ (by decide), envGet_envSet_self]
      · rw [envGet_envSet_self]

theorem execDefaultLogic_idle (se : Val) (m : Mem) (t s h sh d hd : ℚ)
    (hse : truthy se = true)
    (hT : envGet m.inputs "RoomTemperature" = some (.vreal t))
    (hS : envGet m.inputs "SetpointTemp" = some (.vreal s))
    (hH : envGet m.inputs "RoomHumidity" = some (.vreal h))
    (hSH : envGet m.inputs "SetpointHumidity" = some (.vreal sh))
    (hD : envGet m.inputs "TempDeadband" = some (.vreal d))
    (hHD : envGet m.inputs "HumidityDeadband" = some (.vreal hd))
    (hnc : ¬ d < t - s) (hnd : ¬ hd < h - sh) :
    (execDefaultLogic se m).2 = true ∧
    envGet (execDefaultLogic se m).1.outputs "ChillerOn" = some (.vbool false) ∧
    envGet (execDefaultLogic se m).1.outputs "FanSpeed" = some (.vint 20) ∧
    envGet (execDefaultLogic se m).1.outputs "SystemStatus" = some (.vint 2) := by
  have hsub1 : pySub (Val.vreal t) (Val.vreal s) = some (.vreal (t - s)) := by
    simp [pySub, isIntish, isNum, toRat]
  have hsub2 : pySub (Val.vreal h) (Val.vreal sh) = some (.vreal (h - sh)) := by
    simp [pySub, isIntish, isNum, toRat]
  have hgt1 : pyGtB (Val.vreal (t - s)) (Val.vreal d) = some false := by
    simp [pyGtB, isNum, toRat, hnc]
  have hgt2 : pyGtB (Val.vreal (h - sh)) (Val.vreal hd) = some false := by
    simp [pyGtB, isNum, toRat, hnd]
  unfold execDefaultLogic
  rw [if_neg (by simp [hse])]
  rw [hT, hS]
  dsimp only
  rw [hsub1, hH, hSH]
  dsimp only
  rw [hsub2]
  dsimp only
  rw [hD]
  dsimp only
  rw [hgt1]
  dsimp only
  rw [hHD]
  dsimp only
  rw [hgt2]
  dsimp only
  rw [if_neg (by simp)]
  refine ⟨rfl, ?_, ?_, ?_⟩
  · rw [envGet_envSet_ne _ _ _ _ (by decide),
      envGet_envSet_ne _ _ _ _ (by decide), envGet_envSet_self]
  · rw [envGet_envSet_ne _ _ _ _ (by decide), envGet_envSet_self]
  · rw [envGet_envSet_self]

theorem executeCycle_none (rt : Runtime) (h : rt.program = none) :
    executeCycle rt =
      runDefaultBranch rt (rt.cycleCount + 1)
        ((envGet rt.memory.inputs "SystemEnable").getD (.vbool false)) := by
  unfold executeCycle
  rw [h]

theorem runDefaultBranch_memory_ok (rt : Runtime) (cc : Nat) (se : Val)
    (h : (execDefaultLogic se rt.memory).2 = true) :
    (runDefaultBranch rt cc se).memory = (execDefaultLogic se rt.memory).1 := by
  unfold runDefaultBranch
  rcases h2 : execDefaultLogic se rt.memory with ⟨m2, ok⟩
  rw [h2] at h
  cases ok
  · cases h
  · rfl

theorem executeCycle_systemEnabled (rt : Runtime) :
    (executeCycle rt).systemEnabled =
      (envGet rt.memory.inputs "SystemEnable").getD (.vbool false) := by
  unfold executeCycle runDefaultBranch
  dsimp only
  repeat' first
    | rfl
    | split

theorem readInputs_fst_indep (plant : Option (Int × Int)) (rt : Runtime)
    (regs regs2 : Regs) :
    (readInputs plant rt regs).1 = (readInputs plant rt regs2).1 := by
  cases plant with
  | none => rfl
  | some p => rcases p with ⟨t, h⟩; rfl

theorem readInputs_regs_commands (plant : Option (Int × Int)) (rt : Runtime)
    (regs : Regs) (k : Nat) (hk : k < 100) :
    regGet (readInputs plant rt regs).2 k = regGet regs k := by
  cases plant with
  | none => rfl
  | some p =>
      rcases p with ⟨t, h⟩
      show regGet (regSet (regSet regs 100 _) 101 _) k = regGet regs k
      rw [regGet_regSet_ne _ _ _ _ (by omega), regGet_regSet_ne _ _ _ _ (by omega)]

theorem updateServer_memory (rt : Runtime) (regs : Regs) :
    (updateServerRegisters rt regs).1.memory.inputs =
      envSet (envSet (envSet (envSet (envSet rt.memory.inputs
        "SystemEnable" (.vbool (regGet regs 0 != 0)))
        "SetpointTemp" (.vreal ((regGet regs 1 : ℚ) / 10)))
        "SetpointHumidity" (.vreal ((regGet regs 2 : ℚ) / 10)))
        "TempDeadband" (.vreal ((regGet regs 3 : ℚ) / 10)))
        "HumidityDeadband" (.vreal ((regGet regs 4 : ℚ) / 10)) := by
  unfold updateServerRegisters
  dsimp only [regOffset]
  repeat' first
    | rfl
    | split

theorem updateServer_inputs (rt : Runtime) (regs : Regs) :
    envGet (updateServerRegisters rt regs).1.memory.inputs "SystemEnable" =
      some (.vbool (regGet regs 0 != 0)) ∧
    envGet (updateServerRegisters rt regs).1.memory.inputs "SetpointTemp" =
      some (.vreal ((regGet regs 1 : ℚ) / 10)) ∧
    envGet (updateServerRegisters rt regs).1.memory.inputs "SetpointHumidity" =
      some (.vreal ((regGet regs 2 : ℚ) / 10)) ∧
    envGet (updateServerRegisters rt regs).1.memory.inputs "TempDeadband" =
      some (.vreal ((regGet regs 3 : ℚ) / 10)) ∧
    envGet (updateServerRegisters rt regs).1.memory.inputs "HumidityDeadband" =
      some (.vreal ((regGet regs 4 : ℚ) / 10)) := by
  rw [updateServer_memory]
  refine ⟨?_, ?_, ?_, ?_, ?_⟩
  · rw [envGet_envSet_ne _ _ _ _ (by decide), envGet_envSet_ne _ _ _ _ (by decide),
      envGet_envSet_ne _ _ _ _ (by decide), envGet_envSet_ne _ _ _ _ (by decide),
      envGet_envSet_self]
  · rw [envGet_envSet_ne _ _ _ _ (by decide), envGet_envSet_ne _ _ _ _ (by decide),
      envGet_envSet_ne _ _ _ _ (by decide), envGet_envSet_self]
  · rw [envGet_envSet_ne _ _ _ _ (by decide), envGet_envSet_ne _ _ _ _ (by decide),
      envGet_envSet_self]
  · rw [envGet_envSet_ne _ _ _ _ (by decide), envGet_envSet_self]
  · rw [envGet_envSet_self]

theorem getValue_congr (m1 m2 : Mem) (n : String)
    (hi : envGet m1.inputs n = envGet m2.inputs n)
    (ho : envGet m1.outputs n = envGet m2.outputs n)
    (hn : envGet m1.internal n = envGet m2.internal n) :
    getValue m1 n = getValue m2 n := by
  unfold getValue
  rw [hi, ho, hn]

theorem placeVar_other (m : Mem) (v : Variable) (n : String) (h : v.name ≠ n) :
    envGet (placeVar m v).inputs n = envGet m.inputs n ∧
    envGet (placeVar m v).outputs n = envGet m.outputs n ∧
    envGet (placeVar m v).internal n = envGet m.internal n := by
  unfold placeVar
  split
  · exact ⟨envGet_envSet_ne _ _ _ _ h, rfl, rfl⟩
  · split
    · exact ⟨rfl, envGet_envSet_ne _ _ _ _ h, rfl⟩
    · exact ⟨rfl, rfl, envGet_envSet_ne _ _ _ _ h⟩

theorem placeVar_getValue (m : Mem) (v : Variable)
    (hi : envGet m.inputs v.name = none)
    (ho : envGet m.outputs v.name = none) :
    getValue (placeVar m v) v.name = getDefaultValue v.vtype v.initialValue := by
  unfold placeVar
  by_cases h1 : v.isInput = true
  · rw [if_pos h1]
    unfold getValue
    dsimp only
    rw [envGet_envSet_self]
  · rw [if_neg h1]
    by_cases h2 : v.isOutput = true
    · rw [if_pos h2]
      unfold getValue
      dsimp only
      rw [hi, envGet_envSet_self]
    · rw [if_neg h2]
      unfold getValue
      dsimp only
      rw [hi, ho, envGet_envSet_self]

theorem initMemoryAux_other (vars : List Variable) (m : Mem) (n : String)
    (h : ∀ w ∈ vars, w.name ≠ n) :
    envGet (initMemoryAux m vars).inputs n = envGet m.inputs n ∧
    envGet (initMemoryAux m vars).outputs n = envGet m.outputs n ∧
    envGet (initMemoryAux m vars).internal n = envGet m.internal n := by
  induction vars generalizing m with
  | nil => exact ⟨rfl, rfl, rfl⟩
  | cons w rest ih =>
      have hw : w.name ≠ n := h w (List.mem_cons_self w rest)
      have hrest : ∀ x ∈ rest, x.name ≠ n := fun x hx => h x (List.mem_cons_of_mem w hx)
      obtain ⟨p1, p2, p3⟩ := placeVar_other m w n hw
      obtain ⟨q1, q2, q3⟩ := ih (placeVar m w) hrest
      exact ⟨q1.trans p1, q2.trans p2, q3.trans p3⟩

theorem initMemoryAux_getValue : ∀ (vars : List Variable) (m : Mem) (v : Variable),
    v ∈ vars → (vars.map Variable.name).Nodup →
    envGet m.inputs v.name = none → envGet m.outputs v.name = none →
    envGet m.internal v.name = none →
    getValue (initMemoryAux m vars) v.name =
      getDefaultValue v.vtype v.initialValue
  | [], _, v, hv, _, _, _, _ => absurd hv (List.not_mem_nil v)
  | w :: rest, m, v, hv, hnd, hi, ho, hn => by
      rw [List.map_cons, List.nodup_cons] at hnd
      obtain ⟨hwn, hndr⟩ := hnd
      rcases List.mem_cons.mp hv with hvw | hvr
      · subst hvw
        have hrest : ∀ x ∈ rest, x.name ≠ v.name := by
          intro x hx hcontra
          exact hwn (hcontra ▸ List.mem_map_of_mem Variable.name hx)
        obtain ⟨q1, q2, q3⟩ := initMemoryAux_other rest (placeVar m v) v.name hrest
        show getValue (initMemoryAux (placeVar m v) rest) v.name = _
        rw [getValue_congr _ (placeVar m v) _ q1 q2 q3]
        exact placeVar_getValue m v hi ho
      · have hne : w.name ≠ v.name := by
          intro hcontra
          exact hwn (hcontra ▸ List.mem_map_of_mem Variable.name hvr)
        obtain ⟨p1, p2, p3⟩ := placeVar_other m w v.name hne
        exact initMemoryAux_getValue rest (placeVar m w) v hvr hndr
          (p1.trans hi) (p2.trans ho) (p3.trans hn)

/-- Claim C4: for every numeric value `a`, evaluating the binary arithmetic
expression `a / 0` yields `0` and does not raise or signal an error.  Both
the `int` literal `0` and the float `0.0` the parser actually produces for
the source text `0` are covered; the result is the Python `int` `0`. -/
theorem claim_C4 : ∀ (a : Val) (m : Mem), isNum a = true →
    evalExpr (.bin .div (.lit a) (.lit (.vint 0))) m = ⟨some (.vint 0), m, []⟩ ∧
    evalExpr (.bin .div (.lit a) (.lit (.vreal 0))) m = ⟨some (.vint 0), m, []⟩ := by
  intro a m _
  constructor <;> simp [evalExpr, applyBin, pyEq, toRat]

/-- Claim C4 witness: `7.0 / 0` evaluates to the integer `0` without error. -/
theorem claim_C4_witness :
    isNum (.vreal 7) = true ∧
    evalExpr (.bin .div (.lit (.vreal 7)) (.lit (.vint 0))) ⟨[], [], []⟩ =
      ⟨some (.vint 0), ⟨[], [], []⟩, []⟩ :=
  ⟨by decide, (claim_C4 (.vreal 7) ⟨[], [], []⟩ (by decide)).1⟩

/-- Claim C5: an assignment whose target is a declared Input variable (and
not also an Output — the code checks the Output area first, and a run never
declares a name in two classes) is rejected with Memory completely
unchanged, and executing any number of cycles never changes
`Memory.inputs`. -/
theorem claim_C5 :
    (∀ (t : String) (e : Expr) (m : Mem), envHas m.inputs t = true →
      envHas m.outputs t = false → (execStmt (.assign t e) m).mem = m) ∧
    (∀ (rt : Runtime) (n : Nat),
      (executeCycle^[n] rt).memory.inputs = rt.memory.inputs) := by
  constructor
  · intro t e m hi ho
    have hm := evalExpr_mem e m
    cases hv : (evalExpr e m).val with
    | none => simp [execStmt, hv, hm]
    | some v => simp [execStmt, hv, hm, ho, hi]
  · intro rt n
    induction n with
    | zero => rfl
    | succ k ih =>
        rw [Function.iterate_succ_apply', executeCycle_inputs, ih]

/-- Claim C5 witness: assigning `7` to the declared input `SystemEnable` of
the default HVAC memory leaves memory unchanged, and two cycles of the
default controller leave the input area unchanged. -/
theorem claim_C5_witness :
    (execStmt (.assign "SystemEnable" (.lit (.vint 7))) defaultMemory).mem =
      defaultMemory ∧
    (executeCycle^[2] (rtWithMem defaultMemory)).memory.inputs =
      (rtWithMem defaultMemory).memory.inputs :=
  ⟨claim_C5.1 "SystemEnable" (.lit (.vint 7)) defaultMemory (by decide) (by decide),
   claim_C5.2 (rtWithMem defaultMemory) 2⟩

/-- Claim C7: a default-controller cycle with the system disabled (the
`SystemEnable` snapshot is falsy) sets `FanSpeed = 0`, `ChillerOn = false`,
`SystemStatus = 0`, independently of every other input value (the runtime
and hence all temperature/humidity/setpoint/deadband inputs are universally
quantified), and leaves the input area untouched. -/
theorem claim_C7 : ∀ rt : Runtime, rt.program = none →
    truthy ((envGet rt.memory.inputs "SystemEnable").getD (.vbool false)) = false →
    envGet (executeCycle rt).memory.outputs "FanSpeed" = some (.vint 0) ∧
    envGet (executeCycle rt).memory.outputs "ChillerOn" = some (.vbool false) ∧
    envGet (executeCycle rt).memory.outputs "SystemStatus" = some (.vint 0) ∧
    (executeCycle rt).memory.inputs = rt.memory.inputs := by
  intro rt hp hse
  have hd := execDefaultLogic_disabled
    ((envGet rt.memory.inputs "SystemEnable").getD (.vbool false)) rt.memory hse
  have hok : (execDefaultLogic
      ((envGet rt.memory.inputs "SystemEnable").getD (.vbool false)) rt.memory).2 = true := by
    rw [hd]
  have hmem := runDefaultBranch_memory_ok rt (rt.cycleCount + 1)
    ((envGet rt.memory.inputs "SystemEnable").getD (.vbool false)) hok
  refine ⟨?_, ?_, ?_, executeCycle_inputs rt⟩ <;>
    rw [executeCycle_none rt hp, hmem, hd]
  · rw [envGet_envSet_ne _ _ _ _ (by decide), envGet_envSet_ne _ _ _ _ (by decide),
      envGet_envSet_self]
  · rw [envGet_envSet_ne _ _ _ _ (by decide), envGet_envSet_self]
  · rw [envGet_envSet_self]

/-- Claim C7 witness: the default HVAC memory (SystemEnable false,
RoomTemperature 20, SetpointTemp 22) yields FanSpeed 0, ChillerOn false,
SystemStatus 0 after one cycle. -/
theorem claim_C7_witness :
    envGet (executeCycle (rtWithMem defaultMemory)).memory.outputs "FanSpeed" =
      some (.vint 0) ∧
    envGet (executeCycle (rtWithMem defaultMemory)).memory.outputs "ChillerOn" =
      some (.vbool false) ∧
    envGet (executeCycle (rtWithMem defaultMemory)).memory.outputs "SystemStatus" =
      some (.vint 0) ∧
    (executeCycle (rtWithMem defaultMemory)).memory.inputs =
      (rtWithMem defaultMemory).memory.inputs :=
  claim_C7 (rtWithMem defaultMemory) rfl (by decide)

/-- Claim C9: expression evaluation is side-effect-free — the memory
component threaded through `_evaluate_expression` comes back unchanged for
every expression and memory — and a statement containing no assignment
leaves memory unchanged, so only assignment statements mutate Memory. -/
theorem claim_C9 :
    (∀ (e : Expr) (m : Mem), (evalExpr e m).mem = m) ∧
    (∀ (s : Stmt) (m : Mem), stmtNoAssign s = true → (execStmt s m).mem = m) :=
  ⟨evalExpr_mem, execStmt_noAssign⟩

/-- Claim C9 witness: evaluating `RoomTemperature + 1` over the default HVAC
memory leaves it unchanged, as does executing the assignment-free statement
`LogStatus()`. -/
theorem claim_C9_witness :
    (evalExpr (.bin .add (.varE "RoomTemperature") (.lit (.vint 1))) defaultMemory).mem =
      defaultMemory ∧
    (execStmt (.call "LogStatus") defaultMemory).mem = defaultMemory :=
  ⟨claim_C9.1 (.bin .add (.varE "RoomTemperature") (.lit (.vint 1))) defaultMemory,
   claim_C9.2 (.call "LogStatus") defaultMemory (by decide)⟩

/-- Claim C10: memory initialization assigns each declared variable its
parsed literal initial value when present, and otherwise the type default
BOOL ↦ false, INT ↦ 0, REAL ↦ 0.0, TIME ↦ 0; under the program invariant
that declared names are unique, the initialized memory resolves each
variable to exactly that value. -/
theorem claim_C10 :
    (∀ (tn : String) (init : Option Expr) (v : Val),
      init = some (.lit v) → getDefaultValue tn init = v) ∧
    (getDefaultValue "BOOL" none = .vbool false ∧
     getDefaultValue "INT" none = .vint 0 ∧
     getDefaultValue "REAL" none = .vreal 0 ∧
     getDefaultValue "TIME" none = .vint 0) ∧
    (∀ (vars : List Variable) (v : Variable), v ∈ vars →
      (vars.map Variable.name).Nodup →
      getValue (initializeMemory vars) v.name =
        getDefaultValue v.vtype v.initialValue) := by
  refine ⟨?_, ⟨rfl, rfl, rfl, rfl⟩, ?_⟩
  · intro tn init v h
    subst h
    rfl
  · intro vars v hv hnd
    exact initMemoryAux_getValue vars ⟨[], [], []⟩ v hv hnd rfl rfl rfl

/-- Claim C10 witness: a literal initializer is returned as-is, and the
variable list of the example program initializes its declared output
`AlarmActive` to its literal initializer `FALSE`. -/
theorem claim_C10_witness :
    getDefaultValue "INT" (some (.lit (.vint 7))) = .vint 7 ∧
    getValue (initializeMemory progMissing.pvars)
        (Variable.name ⟨"AlarmActive", "BOOL", some (.lit (.vbool false)), false, true⟩) =
      getDefaultValue "BOOL" (some (.lit (.vbool false))) :=
  ⟨claim_C10.1 "INT" (some (.lit (.vint 7))) (.vint 7) rfl,
   claim_C10.2.2 progMissing.pvars
     ⟨"AlarmActive", "BOOL", some (.lit (.vbool false)), false, true⟩
     (List.mem_singleton.mpr rfl) (by decide)⟩

/-- Claim C1 counterexample: the program `X := Missing;` references the
undeclared name `Missing`; the interpreter does NOT treat this as an
evaluation error — after one cycle the `AlarmActive` output is still
`false` and the statement completed, binding `X` to Python `None` — so the
claim that such a reference aborts the statement and sets the Alarm output
is false on the code. -/
theorem claim_C1_counterexample :
    envGet (executeCycle (mkRuntime (some progMissing))).memory.outputs "AlarmActive" =
      some (.vbool false) ∧
    envGet (executeCycle (mkRuntime (some progMissing))).memory.internal "X" =
      some .vnone := by
  constructor <;> decide

/-- Claim C1 (amended): referencing an undeclared/missing variable name is
NOT an evaluation error — `get_value` silently returns Python `None` and
the statement continues (no alarm).  An error arises only when the `None`
subsequently makes an operation raise (e.g. `None + 1`); such a raised
exception aborts the remainder of the statement sequence, and the cycle's
handler sets the `AlarmActive` output, after which the next cycle starts
fresh at the first statement. -/
theorem claim_C1 :
    (∀ (n : String) (m : Mem), envGet m.inputs n = none → envGet m.outputs n = none →
      envGet m.internal n = none → evalExpr (.varE n) m = ⟨some .vnone, m, [n]⟩) ∧
    (∀ (s : Stmt) (rest : Block) (m : Mem), (execStmt s m).ok = false →
      execBlock (.cons s rest) m = execStmt s m) ∧
    (∀ (rt : Runtime) (p : Program), rt.program = some p →
      blockNonEmpty p.statements = true →
      (execBlock p.statements rt.memory).ok = false →
      envGet (executeCycle rt).memory.outputs "AlarmActive" = some (.vbool true)) := by
  refine ⟨?_, ?_, ?_⟩
  · intro n m h1 h2 h3
    unfold evalExpr getValue
    rw [h1, h2, h3]
  · intro s rest m h
    simp [execBlock, h]
  · intro rt p hp hne hok
    unfold executeCycle
    rw [hp]
    dsimp only
    rw [if_pos hne, if_neg (by simp [hok])]
    exact envGet_envSet_self _ _ _

/-- Claim C1 witness: the missing name `Missing` evaluates to `None` with no
error in the empty memory; a raising statement aborts the rest of its
block; and the program `X := Missing + 1;` (a `TypeError` on `None + 1`)
sets the `AlarmActive` output. -/
theorem claim_C1_witness :
    evalExpr (.varE "Missing") ⟨[], [], []⟩ = ⟨some .vnone, ⟨[], [], []⟩, ["Missing"]⟩ ∧
    execBlock (.cons (.assign "X" (.bin .add (.varE "Missing") (.lit (.vint 1))))
        (.cons (.assign "Y" (.lit (.vint 2))) .nil)) defaultMemory =
      execStmt (.assign "X" (.bin .add (.varE "Missing") (.lit (.vint 1)))) defaultMemory ∧
    envGet (executeCycle (mkRuntime (some progTypeErr))).memory.outputs "AlarmActive" =
      some (.vbool true) :=
  ⟨claim_C1.1 "Missing" ⟨[], [], []⟩ rfl rfl rfl,
   claim_C1.2.1 (.assign "X" (.bin .add (.varE "Missing") (.lit (.vint 1))))
     (.cons (.assign "Y" (.lit (.vint 2))) .nil) defaultMemory (by decide),
   claim_C1.2.2 (mkRuntime (some progTypeErr)) progTypeErr rfl rfl (by decide)⟩

/-- Claim C3 counterexample: the logical expression `5 AND 3` evaluates (both
operands evaluated) to the Python value `3`, which is not a boolean — so
the claim that every logical AND/OR expression returns a boolean value is
false on the code. -/
theorem claim_C3_counterexample :
    (evalExpr (.log .and (.lit (.vint 5)) (.lit (.vint 3))) ⟨[], [], []⟩).val =
      some (.vint 3) ∧
    isBoolVal (.vint 3) = false := by
  constructor <;> decide

/-- Claim C3 (amended): comparisons and logical AND/OR evaluate both operand
subexpressions unconditionally — whenever the left operand evaluates
without raising, the right operand's reads always follow it, whatever the
left value was (no short-circuit).  Comparisons do return booleans, but
AND/OR return one of the operand values selected by the truthiness of the
left one (Python `and`/`or` semantics); the result is therefore a boolean
only when both operands are. -/
theorem claim_C3 :
    (∀ (op : ACmp) (l r : Expr) (m : Mem), (evalExpr l m).val.isSome = true →
      (evalExpr (.cmp op l r) m).reads = (evalExpr l m).reads ++ (evalExpr r m).reads) ∧
    (∀ (op : ALog) (l r : Expr) (m : Mem), (evalExpr l m).val.isSome = true →
      (evalExpr (.log op l r) m).reads = (evalExpr l m).reads ++ (evalExpr r m).reads) ∧
    (∀ (op : ACmp) (l r : Expr) (m : Mem) (v : Val),
      (evalExpr (.cmp op l r) m).val = some v → isBoolVal v = true) ∧
    (∀ (op : ALog) (l r : Expr) (m : Mem) (lv rv : Val),
      (evalExpr l m).val = some lv → (evalExpr r m).val = some rv →
      (evalExpr (.log op l r) m).val = some (applyLog op lv rv) ∧
      (applyLog op lv rv = lv ∨ applyLog op lv rv = rv)) := by
  refine ⟨evalExpr_cmp_reads, evalExpr_log_reads, evalExpr_cmp_isBool, ?_⟩
  intro op l r m lv rv hl hr
  refine ⟨evalExpr_log_val op l r m lv rv hl hr, ?_⟩
  cases op
  · by_cases hb : truthy lv = true
    · right; simp [applyLog, hb]
    · left; simp [applyLog, hb]
  · by_cases hb : truthy lv = true
    · left; simp [applyLog, hb]
    · right; simp [applyLog, hb]

/-- Claim C3 witness: with `A = false` and `B = true`, evaluating `A AND B`
reads both `A` and `B` (the right operand is evaluated although the left
already decides the result), a comparison returns a boolean, and
`5 AND 3 = 3` as the truthiness-selected operand. -/
theorem claim_C3_witness :
    (evalExpr (.log .and (.varE "A") (.varE "B"))
        ⟨[("A", .vbool false), ("B", .vbool true)], [], []⟩).reads =
      (evalExpr (.varE "A") ⟨[("A", .vbool false), ("B", .vbool true)], [], []⟩).reads ++
      (evalExpr (.varE "B") ⟨[("A", .vbool false), ("B", .vbool true)], [], []⟩).reads ∧
    isBoolVal (.vbool true) = true ∧
    (evalExpr (.log .and (.lit (.vint 5)) (.lit (.vint 3))) ⟨[], [], []⟩).val =
      some (applyLog .and (.vint 5) (.vint 3)) :=
  ⟨claim_C3.2.1 .and (.varE "A") (.varE "B")
      ⟨[("A", .vbool false), ("B", .vbool true)], [], []⟩ (by decide),
   claim_C3.2.2.1 .eq (.lit (.vint 1)) (.lit (.vint 1)) ⟨[], [], []⟩ (.vbool true)
      (by decide),
   (claim_C3.2.2.2 .and (.lit (.vint 5)) (.lit (.vint 3)) ⟨[], [], []⟩
      (.vint 5) (.vint 3) rfl rfl).1⟩

/-- Claim C6: an IF statement executes exactly one branch (or none): when
the condition is truthy only the THEN block runs and no ELSIF condition is
even evaluated (its reads do not appear); otherwise the block of the first
truthy ELSIF (in declaration order) runs, later clauses contribute neither
reads nor effects and the ELSE block does not run; the ELSE block runs only
when the condition and every ELSIF condition are falsy. -/
theorem claim_C6 :
    (∀ (c : Expr) (th : Block) (el : Elsifs) (els : Block) (m : Mem) (v : Val),
      (evalExpr c m).val = some v → truthy v = true →
      execStmt (.sif c th el els) m =
        ⟨(execBlock th m).mem, (execBlock th m).ok,
         (evalExpr c m).reads ++ (execBlock th m).reads⟩) ∧
    (∀ (c : Expr) (th : Block) (pre : Elsifs) (ce : Expr) (be : Block)
        (post : Elsifs) (els : Block) (m : Mem) (v w : Val),
      (evalExpr c m).val = some v → truthy v = false →
      elsifsAllFalsy pre m = true →
      (evalExpr ce m).val = some w → truthy w = true →
      execStmt (.sif c th (pre.append (.cons ce be post)) els) m =
        ⟨(execBlock be m).mem, (execBlock be m).ok,
         (evalExpr c m).reads ++
           (elsifsCondReads pre m ++ ((evalExpr ce m).reads ++ (execBlock be m).reads))⟩) ∧
    (∀ (c : Expr) (th : Block) (el : Elsifs) (els : Block) (m : Mem) (v : Val),
      (evalExpr c m).val = some v → truthy v = false →
      elsifsAllFalsy el m = true →
      execStmt (.sif c th el els) m =
        ⟨(execBlock els m).mem, (execBlock els m).ok,
         ((evalExpr c m).reads ++ elsifsCondReads el m) ++ (execBlock els m).reads⟩) := by
  refine ⟨?_, ?_, ?_⟩
  · intro c th el els m v hv ht
    have hm := evalExpr_mem c m
    simp [execStmt, hv, hm, ht]
  · intro c th pre ce be post els m v w hv ht hpre hce hw
    have hm := evalExpr_mem c m
    simp [execStmt, hv, hm, ht,
      execElsifs_firstTrue pre ce be post m w hpre hce hw]
  · intro c th el els m v hv ht hall
    have hm := evalExpr_mem c m
    simp [execStmt, hv, hm, ht, execElsifs_allFalsy el m hall]

/-- Claim C6 witness: a concrete IF with a false condition, one false ELSIF,
then a true ELSIF whose block assigns `B := 2`; the following ELSIF's
condition (which would raise on `Missing + 1`) and the ELSE block are never
evaluated or executed, so the result is exactly the true clause's effect. -/
theorem claim_C6_witness :
    execStmt (.sif (.lit (.vbool false)) (.cons (.assign "T" (.lit (.vint 1))) .nil)
        ((Elsifs.cons (.lit (.vbool false)) (.cons (.assign "P" (.lit (.vint 1))) .nil)
            Elsifs.nil).append
          (.cons (.lit (.vbool true)) (.cons (.assign "B" (.lit (.vint 2))) .nil)
            (.cons (.bin .add (.varE "Missing") (.lit (.vint 1)))
              (.cons (.assign "Z" (.lit (.vint 9))) .nil) Elsifs.nil)))
        (.cons (.assign "E" (.lit (.vint 4))) .nil)) ⟨[], [], []⟩ =
      ⟨(execBlock (.cons (.assign "B" (.lit (.vint 2))) .nil) ⟨[], [], []⟩).mem,
       (execBlock (.cons (.assign "B" (.lit (.vint 2))) .nil) ⟨[], [], []⟩).ok,
       (evalExpr (.lit (.vbool false)) ⟨[], [], []⟩).reads ++
         (elsifsCondReads (Elsifs.cons (.lit (.vbool false))
             (.cons (.assign "P" (.lit (.vint 1))) .nil) Elsifs.nil) ⟨[], [], []⟩ ++
           ((evalExpr (.lit (.vbool true)) ⟨[], [], []⟩).reads ++
             (execBlock (.cons (.assign "B" (.lit (.vint 2))) .nil) ⟨[], [], []⟩).reads))⟩ :=
  claim_C6.2.1 (.lit (.vbool false)) (.cons (.assign "T" (.lit (.vint 1))) .nil)
    (Elsifs.cons (.lit (.vbool false)) (.cons (.assign "P" (.lit (.vint 1))) .nil) Elsifs.nil)
    (.lit (.vbool true)) (.cons (.assign "B" (.lit (.vint 2))) .nil)
    (.cons (.bin .add (.varE "Missing") (.lit (.vint 1)))
      (.cons (.assign "Z" (.lit (.vint 9))) .nil) Elsifs.nil)
    (.cons (.assign "E" (.lit (.vint 4))) .nil) ⟨[], [], []⟩
    (.vbool false) (.vbool true) rfl rfl (by decide) rfl rfl

/-- Claim C2 counterexample: with `RoomTemperature = 25.08` (temp_error =
3.08 > deadband 1, so cooling is required), the code computes `FanSpeed =
min(100, max(30, int(3.08 * 20))) = 61` (truncation), while the claimed
formula `clamp(30, 100, round(temp_error * 20))` gives `62` — so the claim
as stated is false at this input. -/
theorem claim_C2_counterexample :
    envGet (executeCycle (rtWithMem memCooling2508)).memory.outputs "FanSpeed" =
      some (.vint 61) ∧
    specFanSpeedClaim ((2508 / 100 : ℚ) - 22) = 62 ∧
    (61 : Int) ≠ 62 := by
  refine ⟨?_, ?_, by decide⟩
  · have hc := execDefaultLogic_cooling (.vbool true) memCooling2508
      (2508 / 100) 22 50 45 1 5 rfl rfl rfl rfl rfl rfl rfl (by norm_num)
    rw [executeCycle_none (rtWithMem memCooling2508) rfl]
    rw [show (envGet (rtWithMem memCooling2508).memory.inputs "SystemEnable").getD
        (Val.vbool false) = Val.vbool true from rfl]
    rw [runDefaultBranch_memory_ok _ _ _ hc.1]
    show envGet (execDefaultLogic (Val.vbool true) memCooling2508).1.outputs "FanSpeed" =
      some (Val.vint 61)
    rw [hc.2.2.2]
    have h61 : min 100 (max 30 (ratTrunc (((2508 : ℚ) / 100 - 22) * 20))) = (61 : Int) := by
      have hq : (((2508 : ℚ) / 100 - 22) * 20) = 308 / 5 := by norm_num
      rw [ratTrunc, hq]
      norm_num
    rw [h61]
  · rw [specFanSpeedClaim, specRoundNearest]
    have hq : (((2508 : ℚ) / 100 - 22) * 20 + 1 / 2) = 621 / 10 := by norm_num
    rw [hq]
    norm_num

/-- Claim C2 (amended): in a default-controller cycle with the system
enabled and cooling required (`temp_error = RoomTemperature - SetpointTemp
> TempDeadband`), the outputs become `ChillerOn = true`, `SystemStatus = 1`
and `FanSpeed = clamp(30, 100, trunc(temp_error * 20))`, where `trunc` is
Python `int()` truncation toward zero — not rounding to nearest; the
claim's concrete scenario (temp_error * 20 = 60, an integer) is unaffected
and still yields `FanSpeed = 60`. -/
theorem claim_C2 : ∀ (rt : Runtime) (sev : Val) (t s h sh d hd : ℚ),
    rt.program = none →
    envGet rt.memory.inputs "SystemEnable" = some sev → truthy sev = true →
    envGet rt.memory.inputs "RoomTemperature" = some (.vreal t) →
    envGet rt.memory.inputs "SetpointTemp" = some (.vreal s) →
    envGet rt.memory.inputs "RoomHumidity" = some (.vreal h) →
    envGet rt.memory.inputs "SetpointHumidity" = some (.vreal sh) →
    envGet rt.memory.inputs "TempDeadband" = some (.vreal d) →
    envGet rt.memory.inputs "HumidityDeadband" = some (.vreal hd) →
    d < t - s →
    envGet (executeCycle rt).memory.outputs "ChillerOn" = some (.vbool true) ∧
    envGet (executeCycle rt).memory.outputs "SystemStatus" = some (.vint 1) ∧
    envGet (executeCycle rt).memory.outputs "FanSpeed" =
      some (.vint (min 100 (max 30 (ratTrunc ((t - s) * 20))))) := by
  intro rt sev t s h sh d hd hp hseg hse hT hS hH hSH hD hHD hcool
  have hget : (envGet rt.memory.inputs "SystemEnable").getD (.vbool false) = sev := by
    rw [hseg]; rfl
  have hc := execDefaultLogic_cooling sev rt.memory t s h sh d hd hse hT hS hH hSH hD hHD hcool
  have hmem := runDefaultBranch_memory_ok rt (rt.cycleCount + 1) sev hc.1
  rw [executeCycle_none rt hp, hget, hmem]
  exact ⟨hc.2.1, hc.2.2.1, hc.2.2.2⟩

/-- Claim C2 witness: spec Scenario B (`RoomTemperature = 25`,
`SetpointTemp = 22`, `TempDeadband = 1`, enabled): `ChillerOn = true`,
`SystemStatus = 1`, `FanSpeed = 60`. -/
theorem claim_C2_witness :
    envGet (executeCycle (rtWithMem memScenarioB)).memory.outputs "ChillerOn" =
      some (.vbool true) ∧
    envGet (executeCycle (rtWithMem memScenarioB)).memory.outputs "SystemStatus" =
      some (.vint 1) ∧
    envGet (executeCycle (rtWithMem memScenarioB)).memory.outputs "FanSpeed" =
      some (.vint 60) := by
  have hc := claim_C2 (rtWithMem memScenarioB) (.vbool true) 25 22 50 45 1 5
    rfl (by decide) rfl (by decide) (by decide) (by decide) (by decide)
    (by decide) (by decide) (by norm_num)
  refine ⟨hc.1, hc.2.1, ?_⟩
  have h60 : min 100 (max 30 (ratTrunc ((25 - 22) * 20))) = (60 : Int) := by
    have hq : (((25 : ℚ) - 22) * 20) = 60 := by norm_num
    rw [ratTrunc, hq]
    norm_num
  rw [hc.2.2, h60]

/-- Claim C8: a supervisory write to a Command register becomes visible to
the interpreter only through the command-block copy into `Memory.inputs`
that `update_server_registers` performs after the cycle's interpreter step:
(1) the runtime state produced by the in-flight cycle's interpreter step is
identical for any two server register tables, so the write cannot affect
the cycle in flight; (2) after the iteration completes, `Memory.inputs`
holds exactly the decoded command registers; and (3) the next cycle's
interpreter step snapshots `system_enabled` from that copied value. -/
theorem claim_C8 : ∀ (plant : Option (Int × Int)) (rt : Runtime) (regs regs2 : Regs),
    midCycleRuntime plant rt regs = midCycleRuntime plant rt regs2 ∧
    envGet ((runIteration plant rt regs).1).memory.inputs "SystemEnable" =
      some (.vbool (regGet regs 0 != 0)) ∧
    envGet ((runIteration plant rt regs).1).memory.inputs "SetpointTemp" =
      some (.vreal ((regGet regs 1 : ℚ) / 10)) ∧
    envGet ((runIteration plant rt regs).1).memory.inputs "SetpointHumidity" =
      some (.vreal ((regGet regs 2 : ℚ) / 10)) ∧
    envGet ((runIteration plant rt regs).1).memory.inputs "TempDeadband" =
      some (.vreal ((regGet regs 3 : ℚ) / 10)) ∧
    envGet ((runIteration plant rt regs).1).memory.inputs "HumidityDeadband" =
      some (.vreal ((regGet regs 4 : ℚ) / 10)) ∧
    (executeCycle (runIteration plant rt regs).1).systemEnabled =
      .vbool (regGet regs 0 != 0) := by
  intro plant rt regs regs2
  have hfst : (runIteration plant rt regs).1 =
      (updateServerRegisters (midCycleRuntime plant rt regs)
        (readInputs plant rt regs).2).1 := rfl
  have hcmds := updateServer_inputs (midCycleRuntime plant rt regs)
    (readInputs plant rt regs).2
  have h0 := readInputs_regs_commands plant rt regs 0 (by omega)
  have h1 := readInputs_regs_commands plant rt regs 1 (by omega)
  have h2 := readInputs_regs_commands plant rt regs 2 (by omega)
  have h3 := readInputs_regs_commands plant rt regs 3 (by omega)
  have h4 := readInputs_regs_commands plant rt regs 4 (by omega)
  rw [h0, h1, h2, h3, h4] at hcmds
  refine ⟨congrArg executeCycle (readInputs_fst_indep plant rt regs regs2),
    ?_, ?_, ?_, ?_, ?_, ?_⟩
  · rw [hfst]; exact hcmds.1
  · rw [hfst]; exact hcmds.2.1
  · rw [hfst]; exact hcmds.2.2.1
  · rw [hfst]; exact hcmds.2.2.2.1
  · rw [hfst]; exact hcmds.2.2.2.2
  · rw [executeCycle_systemEnabled, hfst, hcmds.1]
    rfl

end PLCSim
